import Mathlib

/-!
Verification of the lunchmoney Go client library (transactions + crypto
resources) against its natural-language specification.

The embedding models:
- a fragment of Go's `encoding/json` marshalling/unmarshalling as used by
  the library (struct → JSON object, JSON object → `map[string]string`,
  JSON object → typed response structs),
- the `go-playground/validator` tags actually present on the structs
  (`omitempty,datetime=2006-01-02`, `omitnil,datetime=2006-01-02`,
  `omitnil,oneof=cleared uncleared`),
- the resource client methods `GetCrypto`, `GetTransactions`,
  `GetTransaction`, `UpdateTransaction`, `UpdateManualCrypto` as pure
  functions of the single transport outcome (the HTTP transport is an
  external collaborator; a method consults its one outcome at most once,
  so no retry is representable or performed).

JSON numbers are modelled as integers: no claim in scope depends on a
fractional numeric field (the only one, `to_base`, is never inspected).
`time.Time` fields are modelled as their raw RFC-3339 text; their
parse-validity is not relied on by any claim.
-/

namespace LunchMoney

/-- Model of a JSON value as handled by `encoding/json`. -/
inductive Json where
  | null : Json
  | bool (b : Bool) : Json
  | num (n : Int) : Json
  | str (s : String) : Json
  | arr (xs : List Json) : Json
  | obj (fields : List (String × Json)) : Json

/-- Look up a key in a decoded JSON object (Go's decoder sets a struct
field from the matching key; a missing key leaves the zero value). -/
def jsonLookup (fields : List (String × Json)) (key : String) : Option Json :=
  match fields.find? (fun p => p.1 = key) with
  | some p => some p.2
  | none => none

/- ### Date validation: Go `time.Parse("2006-01-02", s)`

The validator tag `datetime=2006-01-02` succeeds exactly when
`time.Parse` does: four year digits, a literal dash, two month digits
(1..12), a literal dash, two day digits (1..last day of the month,
leap years accounted for), and nothing else. -/

def isLeapYear (y : Nat) : Bool :=
  y % 4 = 0 && (y % 100 ≠ 0 || y % 400 = 0)

def daysInMonth (y m : Nat) : Nat :=
  if m = 2 then (if isLeapYear y then 29 else 28)
  else if m = 4 || m = 6 || m = 9 || m = 11 then 30
  else 31

/-- Whether a string is a calendar date in `YYYY-MM-DD` form, as accepted
by Go's `time.Parse` with layout `2006-01-02`. -/
def isValidDate (s : String) : Bool :=
  match s.toList with
  | [y1, y2, y3, y4, c1, m1, m2, c2, d1, d2] =>
    y1.isDigit && y2.isDigit && y3.isDigit && y4.isDigit &&
    c1 = '-' && m1.isDigit && m2.isDigit &&
    c2 = '-' && d1.isDigit && d2.isDigit &&
    (let y := ((y1.toNat - 48) * 1000 + (y2.toNat - 48) * 100 +
               (y3.toNat - 48) * 10 + (y4.toNat - 48))
     let m := (m1.toNat - 48) * 10 + (m2.toNat - 48)
     let d := (d1.toNat - 48) * 10 + (d2.toNat - 48)
     1 ≤ m && m ≤ 12 && 1 ≤ d && d ≤ daysInMonth y m)
  | _ => false

/- ### TransactionFilters and ToMap -/

/-- Model of `TransactionFilters` (transactions source, lines 42-53). Go scalar
fields; `int64` is modelled as `Int`, zero values are `0`, `""`, `false`. -/
structure TransactionFilters where
  tagID : Int := 0
  recurringID : Int := 0
  plaidAccountID : Int := 0
  categoryID : Int := 0
  assetID : Int := 0
  offset : Int := 0
  limit : Int := 0
  startDate : String := ""
  endDate : String := ""
  debitAsNegative : Bool := false
deriving Repr, DecidableEq

/-- Go `json.Marshal` applied to a `TransactionFilters` value. None of the
struct's json tags carry `omitempty`, so every field is emitted, in
declaration order, with its tag name. -/
def TransactionFilters.marshal (r : TransactionFilters) : List (String × Json) :=
  [("tag_id", Json.num r.tagID),
   ("recurring_id", Json.num r.recurringID),
   ("plaid_account_id", Json.num r.plaidAccountID),
   ("category_id", Json.num r.categoryID),
   ("asset_id", Json.num r.assetID),
   ("offset", Json.num r.offset),
   ("limit", Json.num r.limit),
   ("start_date", Json.str r.startDate),
   ("end_date", Json.str r.endDate),
   ("debit_as_negative", Json.bool r.debitAsNegative)]

/-- Go `json.Unmarshal` of a JSON object into a Go `map[string]string`:
every value must itself be a JSON string; a number, boolean, array,
object (or null into a map entry) is an `UnmarshalTypeError`. -/
def unmarshalStringMap : List (String × Json) → Except String (List (String × String))
  | [] => Except.ok []
  | (k, Json.str v) :: rest =>
    (unmarshalStringMap rest).map (fun m => (k, v) :: m)
  | (_, Json.num _) :: _ =>
    Except.error "json: cannot unmarshal number into Go value of type string"
  | (_, Json.bool _) :: _ =>
    Except.error "json: cannot unmarshal bool into Go value of type string"
  | (_, Json.null) :: rest => unmarshalStringMap rest
  | (_, Json.arr _) :: _ =>
    Except.error "json: cannot unmarshal array into Go value of type string"
  | (_, Json.obj _) :: _ =>
    Except.error "json: cannot unmarshal object into Go value of type string"

/-- Model of `TransactionFilters.ToMap` (transactions source, lines 57-69):
marshal the struct to JSON, then unmarshal the bytes into a
`map[string]string`; either failure is returned to the caller. -/
def TransactionFilters.ToMap (r : TransactionFilters) : Except String (List (String × String)) :=
  unmarshalStringMap r.marshal

/- ### Validator models

`go-playground/validator` evaluates the `validate` struct tags; every
failed field contributes one message and the messages are joined.  Only
the tags actually present in the source are modelled; a struct with no
tags (and no `dive` into its slices) always validates. -/

/-- Go `validate.Struct` on `TransactionFilters`: `StartDate` and `EndDate`
carry `omitempty,datetime=2006-01-02`. -/
def TransactionFilters.validate (f : TransactionFilters) : Option String :=
  let errs :=
    (if f.startDate ≠ "" && !isValidDate f.startDate then
      ["Field validation for StartDate failed on the datetime tag"] else []) ++
    (if f.endDate ≠ "" && !isValidDate f.endDate then
      ["Field validation for EndDate failed on the datetime tag"] else [])
  match errs with
  | [] => none
  | es => some (String.intercalate "\n" es)

/-- Model of `UpdateTransaction` (transactions source, lines 138-148): every field
is a nilable pointer; `Date` carries `omitnil,datetime=2006-01-02` and
`Status` carries `omitnil,oneof=cleared uncleared`. -/
structure UpdateTransaction where
  date : Option String := none
  categoryID : Option Int := none
  payee : Option String := none
  currency : Option String := none
  assetID : Option Int := none
  recurringID : Option Int := none
  notes : Option String := none
  status : Option String := none
  externalID : Option String := none
deriving Repr, DecidableEq

/-- Go `validate.Struct` on `UpdateTransaction`: nil fields are skipped
(`omitnil`); a present `Date` must be a `YYYY-MM-DD` date and a present
`Status` must be `cleared` or `uncleared`.  No field is required, so the
all-nil payload validates. -/
def UpdateTransaction.validate (u : UpdateTransaction) : Option String :=
  let errs :=
    (match u.date with
     | some d => if !isValidDate d then
        ["Field validation for Date failed on the datetime tag"] else []
     | none => []) ++
    (match u.status with
     | some s => if !(s = "cleared" || s = "uncleared") then
        ["Field validation for Status failed on the oneof tag"] else []
     | none => [])
  match errs with
  | [] => none
  | es => some (String.intercalate "\n" es)

/-- Model of `UpdateCrypto` (crypto.go lines 67-73): five nilable pointer fields,
none of which carries a `validate` tag. -/
structure UpdateCrypto where
  name : Option String := none
  displayName : Option String := none
  institutionName : Option String := none
  balance : Option String := none
  currency : Option String := none
deriving Repr, DecidableEq

/-- Go `validate.Struct` on `UpdateCrypto`: the struct declares no
validation tags, so validation never fails. -/
def UpdateCrypto.validate (_u : UpdateCrypto) : Option String := none

/- ### Resource records -/

/-- Model of `Transaction` (transactions source, lines 17-35). -/
structure Transaction where
  id : Int := 0
  date : String := ""
  payee : String := ""
  amount : String := ""
  currency : String := ""
  notes : String := ""
  categoryID : Int := 0
  recurringID : Int := 0
  assetID : Int := 0
  plaidAccountID : Int := 0
  status : String := ""
  isGroup : Bool := false
  groupID : Int := 0
  parentID : Int := 0
  externalID : Int := 0
deriving Repr, DecidableEq

/-- Go `validate.Struct` on a decoded `Transaction`: `Date` carries
`omitempty,datetime=2006-01-02`; no other field is tagged. -/
def Transaction.validate (t : Transaction) : Option String :=
  if t.date ≠ "" && !isValidDate t.date then
    some "Field validation for Date failed on the datetime tag"
  else none

/-- Model of `TransactionsResponse`: the envelope around a transactions list.
A Go nil slice (key absent or JSON null) is `none`; a present JSON
array, even empty, is `some`. -/
structure TransactionsResponse where
  transactions : Option (List Transaction)
deriving Repr, DecidableEq

/-- Model of `UpdateTransactionResp` (transactions source, lines 156-159). -/
structure UpdateTransactionResp where
  updated : Bool := false
  split : Option (List Int) := none
deriving Repr, DecidableEq

/-- Model of `Crypto` (crypto.go lines 19-32).  `*int` fields are `Option Int`,
`*string` fields `Option String`; the two `time.Time` fields are carried
as their raw RFC-3339 text (no claim inspects them); `*float64 to_base`
is carried as an optional JSON integer (no claim inspects it and no
modelled input carries a fractional value). -/
structure Crypto where
  id : Option Int := none
  zaboAccountID : Option Int := none
  source : String := ""
  name : String := ""
  displayName : Option String := none
  balance : String := ""
  balanceAsOf : String := ""
  currency : String := ""
  status : String := ""
  institutionName : Option String := none
  createdAt : String := ""
  toBase : Option Int := none
deriving Repr, DecidableEq

/-- Model of `CryptoResponse` (crypto.go lines 14-16): envelope around the crypto
list; `none` is a Go nil slice, `some` a present (possibly empty) array. -/
structure CryptoResponse where
  crypto : Option (List Crypto)
deriving Repr, DecidableEq

/- ### JSON decoding into the typed structs (`encoding/json` behaviour):
a missing key or JSON null leaves the zero value, a pointer field decodes
null/missing to nil, and a value of the wrong JSON kind is an
`UnmarshalTypeError`. -/

def decodeString (v : Option Json) : Except String String :=
  match v with
  | none => Except.ok ""
  | some Json.null => Except.ok ""
  | some (Json.str s) => Except.ok s
  | some _ => Except.error "json: cannot unmarshal value into Go string field"

def decodeInt (v : Option Json) : Except String Int :=
  match v with
  | none => Except.ok 0
  | some Json.null => Except.ok 0
  | some (Json.num n) => Except.ok n
  | some _ => Except.error "json: cannot unmarshal value into Go int64 field"

def decodeBool (v : Option Json) : Except String Bool :=
  match v with
  | none => Except.ok false
  | some Json.null => Except.ok false
  | some (Json.bool b) => Except.ok b
  | some _ => Except.error "json: cannot unmarshal value into Go bool field"

def decodeOptInt (v : Option Json) : Except String (Option Int) :=
  match v with
  | none => Except.ok none
  | some Json.null => Except.ok none
  | some (Json.num n) => Except.ok (some n)
  | some _ => Except.error "json: cannot unmarshal value into Go int pointer field"

def decodeOptString (v : Option Json) : Except String (Option String) :=
  match v with
  | none => Except.ok none
  | some Json.null => Except.ok none
  | some (Json.str s) => Except.ok (some s)
  | some _ => Except.error "json: cannot unmarshal value into Go string pointer field"

/-- Go `time.Time` fields: the wire text is kept verbatim (a missing key or
null leaves the zero time); RFC-3339 validity checking inside
`time.Time.UnmarshalJSON` is not modelled, as no claim depends on it. -/
def decodeTime (v : Option Json) : Except String String :=
  match v with
  | none => Except.ok ""
  | some Json.null => Except.ok ""
  | some (Json.str s) => Except.ok s
  | some _ => Except.error "json: cannot unmarshal value into Go time.Time field"

def decodeIntList (v : Option Json) : Except String (Option (List Int)) :=
  match v with
  | none => Except.ok none
  | some Json.null => Except.ok none
  | some (Json.arr xs) =>
    (xs.mapM (fun x => match x with
      | Json.num n => Except.ok n
      | _ => Except.error "json: cannot unmarshal value into Go int field")).map some
  | some _ => Except.error "json: cannot unmarshal value into Go int slice field"

def decodeCryptoJson (j : Json) : Except String Crypto :=
  match j with
  | Json.obj fs => do
    let id ← decodeOptInt (jsonLookup fs "id")
    let zabo ← decodeOptInt (jsonLookup fs "zabo_account_id")
    let source ← decodeString (jsonLookup fs "source")
    let name ← decodeString (jsonLookup fs "name")
    let displayName ← decodeOptString (jsonLookup fs "display_name")
    let balance ← decodeString (jsonLookup fs "balance")
    let balanceAsOf ← decodeTime (jsonLookup fs "balance_as_of")
    let currency ← decodeString (jsonLookup fs "currency")
    let status ← decodeString (jsonLookup fs "status")
    let institutionName ← decodeOptString (jsonLookup fs "institution_name")
    let createdAt ← decodeTime (jsonLookup fs "created_at")
    let toBase ← decodeOptInt (jsonLookup fs "to_base")
    Except.ok ⟨id, zabo, source, name, displayName, balance, balanceAsOf,
               currency, status, institutionName, createdAt, toBase⟩
  | Json.null => Except.ok {}
  | _ => Except.error "json: cannot unmarshal value into Go struct Crypto"

def decodeTransactionJson (j : Json) : Except String Transaction :=
  match j with
  | Json.obj fs => do
    let id ← decodeInt (jsonLookup fs "id")
    let date ← decodeString (jsonLookup fs "date")
    let payee ← decodeString (jsonLookup fs "payee")
    let amount ← decodeString (jsonLookup fs "amount")
    let currency ← decodeString (jsonLookup fs "currency")
    let notes ← decodeString (jsonLookup fs "notes")
    let categoryID ← decodeInt (jsonLookup fs "category_id")
    let recurringID ← decodeInt (jsonLookup fs "recurring_id")
    let assetID ← decodeInt (jsonLookup fs "asset_id")
    let plaidAccountID ← decodeInt (jsonLookup fs "plaid_account_id")
    let status ← decodeString (jsonLookup fs "status")
    let isGroup ← decodeBool (jsonLookup fs "is_group")
    let groupID ← decodeInt (jsonLookup fs "group_id")
    let parentID ← decodeInt (jsonLookup fs "parent_id")
    let externalID ← decodeInt (jsonLookup fs "external_id")
    Except.ok ⟨id, date, payee, amount, currency, notes, categoryID,
               recurringID, assetID, plaidAccountID, status, isGroup,
               groupID, parentID, externalID⟩
  | Json.null => Except.ok {}
  | _ => Except.error "json: cannot unmarshal value into Go struct Transaction"

/-- An HTTP response body: either text that is not valid JSON (truncated
or otherwise malformed) or a parsed JSON value. -/
inductive Body where
  | invalid : Body
  | json (j : Json) : Body

def decodeCryptoResponse (b : Body) : Except String CryptoResponse :=
  match b with
  | Body.invalid => Except.error "unexpected EOF"
  | Body.json (Json.obj fs) =>
    match jsonLookup fs "crypto" with
    | none => Except.ok ⟨none⟩
    | some Json.null => Except.ok ⟨none⟩
    | some (Json.arr xs) => (xs.mapM decodeCryptoJson).map (fun cs => ⟨some cs⟩)
    | some _ => Except.error "json: cannot unmarshal value into Go crypto slice field"
  | Body.json Json.null => Except.ok ⟨none⟩
  | Body.json _ => Except.error "json: cannot unmarshal value into Go struct CryptoResponse"

def decodeTransactionsResponse (b : Body) : Except String TransactionsResponse :=
  match b with
  | Body.invalid => Except.error "unexpected EOF"
  | Body.json (Json.obj fs) =>
    match jsonLookup fs "transactions" with
    | none => Except.ok ⟨none⟩
    | some Json.null => Except.ok ⟨none⟩
    | some (Json.arr xs) => (xs.mapM decodeTransactionJson).map (fun ts => ⟨some ts⟩)
    | some _ => Except.error "json: cannot unmarshal value into Go transactions slice field"
  | Body.json Json.null => Except.ok ⟨none⟩
  | Body.json _ => Except.error "json: cannot unmarshal value into Go struct TransactionsResponse"

def decodeTransactionBody (b : Body) : Except String Transaction :=
  match b with
  | Body.invalid => Except.error "unexpected EOF"
  | Body.json j => decodeTransactionJson j

def decodeCryptoBody (b : Body) : Except String Crypto :=
  match b with
  | Body.invalid => Except.error "unexpected EOF"
  | Body.json j => decodeCryptoJson j

def decodeUpdateTransactionResp (b : Body) : Except String UpdateTransactionResp :=
  match b with
  | Body.invalid => Except.error "unexpected EOF"
  | Body.json (Json.obj fs) => do
    let updated ← decodeBool (jsonLookup fs "updated")
    let split ← decodeIntList (jsonLookup fs "split")
    Except.ok ⟨updated, split⟩
  | Body.json Json.null => Except.ok {}
  | Body.json _ =>
    Except.error "json: cannot unmarshal value into Go struct UpdateTransactionResp"

/- ### Resource client methods

Each Go method composes: validate the supplied filter/payload, encode it,
issue one HTTP call, decode the body, (for read calls) validate the
decoded struct, return.  The transport (`Client.Get` / `Client.Put`) is
an external collaborator whose single outcome — a body, or an error
covering both connectivity failures and non-2xx statuses — is a
parameter; it is consulted at most once, so there is no retry.
Go's `(result, error)` pair, where exactly one side is populated, is
`Except String result`. -/

namespace Client

/-- Model of `Client.GetCrypto` (crypto.go lines 44-63).  The final
`validate.Struct(resp)` cannot fail: `CryptoResponse` declares no
validation tags and slices are not dived into, so it is the identity
step here. -/
def GetCrypto (transport : Except String Body) : Except String (Option (List Crypto)) :=
  match transport with
  | Except.error e => Except.error ("get crypto: " ++ e)
  | Except.ok body =>
    match decodeCryptoResponse body with
    | Except.error e => Except.error ("decode response: " ++ e)
    | Except.ok resp => Except.ok resp.crypto

/-- Model of `Client.GetTransactions` (transactions source, lines 72-99).  A
non-nil filter is validated, then encoded with `ToMap` (whose failure is
wrapped as `convert filters to map:`); the response envelope carries no
validation tags, so the final `validate.Struct(resp)` never fails. -/
def GetTransactions (filters : Option TransactionFilters)
    (transport : Except String Body) : Except String (Option (List Transaction)) :=
  let proceed : Except String (Option (List Transaction)) :=
    match transport with
    | Except.error e => Except.error ("get transactions: " ++ e)
    | Except.ok body =>
      match decodeTransactionsResponse body with
      | Except.error e => Except.error ("decode response: " ++ e)
      | Except.ok resp => Except.ok resp.transactions
  match filters with
  | none => proceed
  | some f =>
    match f.validate with
    | some e => Except.error e
    | none =>
      match f.ToMap with
      | Except.error e => Except.error ("convert filters to map: " ++ e)
      | Except.ok _opts => proceed

/-- Model of `Client.GetTransaction` (transactions source, lines 102-131).  Here a
`ToMap` failure is returned unwrapped, and the decoded single record IS
validated before being returned. -/
def GetTransaction (id : Int) (filters : Option TransactionFilters)
    (transport : Except String Body) : Except String Transaction :=
  let proceed : Except String Transaction :=
    match transport with
    | Except.error e => Except.error ("get transaction " ++ toString id ++ ": " ++ e)
    | Except.ok body =>
      match decodeTransactionBody body with
      | Except.error e => Except.error ("decode response: " ++ e)
      | Except.ok t =>
        match t.validate with
        | some e => Except.error e
        | none => Except.ok t
  match filters with
  | none => proceed
  | some f =>
    match f.validate with
    | some e => Except.error e
    | none =>
      match f.ToMap with
      | Except.error e => Except.error e
      | Except.ok _opts => proceed

/-- Model of `Client.UpdateTransaction` (transactions source, lines 161-178): the
payload is validated before the PUT; the decoded response is returned
without a validation step. -/
def UpdateTransaction (id : Int) (ut : LunchMoney.UpdateTransaction)
    (transport : Except String Body) : Except String UpdateTransactionResp :=
  match ut.validate with
  | some e => Except.error e
  | none =>
    match transport with
    | Except.error e => Except.error ("update transaction " ++ toString id ++ ": " ++ e)
    | Except.ok body =>
      match decodeUpdateTransactionResp body with
      | Except.error e => Except.error ("decode response: " ++ e)
      | Except.ok resp => Except.ok resp

/-- Model of `Client.UpdateManualCrypto` (crypto.go lines 79-96): the payload is
validated (vacuously — `UpdateCrypto` has no tags) before the PUT; the
decoded `Crypto` response is returned without a validation step. -/
def UpdateManualCrypto (id : Int) (crypto : UpdateCrypto)
    (transport : Except String Body) : Except String Crypto :=
  match crypto.validate with
  | some e => Except.error e
  | none =>
    match transport with
    | Except.error e => Except.error ("put crypto " ++ toString id ++ ": " ++ e)
    | Except.ok body =>
      match decodeCryptoBody body with
      | Except.error e => Except.error ("decode response: " ++ e)
      | Except.ok resp => Except.ok resp

end Client

/- ### Currency parsing -/

/-- A structured money value: minor-unit integer amount plus currency
code, as produced by the go-money library. -/
structure Money where
  amount : Int
  currency : String
deriving Repr, DecidableEq

inductive CurrencyError where
  | malformedAmount : CurrencyError
  | unknownCurrency : CurrencyError
deriving Repr, DecidableEq

/-- Modelled from the spec: the currency reference table consulted by the
Currency Parser (§4.1) is not among the provided sources; per the spec it
maps a known currency identifier to its canonical fraction-digit count
(2 for most fiat currencies; cryptocurrency tickers such as BTC are
known codes here, as required by the §8 scenario in which parsing with
code BTC succeeds). -/
def currencyFraction (code : String) : Option Nat :=
  if code = "USD" || code = "EUR" || code = "GBP" then some 2
  else if code = "JPY" then some 0
  else if code = "BTC" then some 8
  else if code = "ETH" then some 18
  else none

def digitsVal (ds : List Char) : Nat :=
  ds.foldl (fun a c => a * 10 + (c.toNat - 48)) 0

/-- Modelled from the spec: the decimal-numeral syntax of §4.1 — optional
sign, digits, optional single decimal point, optional fractional digits.
Returns the sign, integer digits and fractional digits, or `none` when
the text is not a decimal numeral. -/
def parseDecimal (s : String) : Option (Bool × List Char × List Char) :=
  let afterSign :=
    match s.toList with
    | '-' :: rest => some (true, rest)
    | '+' :: rest => some (false, rest)
    | rest => some (false, rest)
  match afterSign with
  | some (neg, cs) =>
    let intPart := cs.takeWhile Char.isDigit
    let rest := cs.dropWhile Char.isDigit
    if intPart = [] then none
    else match rest with
      | [] => some (neg, intPart, [])
      | '.' :: frac =>
        if frac.all Char.isDigit then some (neg, intPart, frac) else none
      | _ => none
  | none => none

/-- Modelled from the spec: `ParseCurrency` (the Currency Parser, §4.1)
is not among the provided sources.  It parses the amount text as a
decimal numeral (failure: malformed amount), looks the code up in the
currency table (failure: unknown currency — the fail-explicitly option
of §4.1), rejects amounts with more fractional digits than the currency
supports, and returns the amount scaled to minor units together with the
currency code. -/
def ParseCurrency (amount currency : String) : Except CurrencyError Money :=
  match parseDecimal amount with
  | none => Except.error CurrencyError.malformedAmount
  | some (neg, intDs, fracDs) =>
    match currencyFraction currency with
    | none => Except.error CurrencyError.unknownCurrency
    | some frac =>
      if fracDs.length > frac then Except.error CurrencyError.malformedAmount
      else
        let magnitude : Nat :=
          digitsVal intDs * 10 ^ frac + digitsVal fracDs * 10 ^ (frac - fracDs.length)
        Except.ok ⟨if neg then -(magnitude : Int) else (magnitude : Int), currency⟩

/-- Model of `Crypto.ParsedAmount` (crypto.go lines 37-39): parse the record's
balance and currency with `ParseCurrency`. -/
def Crypto.ParsedAmount (c : Crypto) : Except CurrencyError Money :=
  ParseCurrency c.balance c.currency

/- ### Concrete values used in the theorems -/

/-- A server response to a crypto list request containing one record
with source `manual` that carries BOTH identifier fields. -/
def bodyBothIDs : Body :=
  Body.json (Json.obj [("crypto", Json.arr
    [Json.obj [("id", Json.num 1), ("zabo_account_id", Json.num 2),
               ("source", Json.str "manual")]])])

/-- The decoded form of the record inside `bodyBothIDs`. -/
def cryptoBothIDs : Crypto :=
  { id := some 1, zaboAccountID := some 2, source := "manual" }

/-- A server response to a manual-crypto update whose decoded record has
an unparseable balance. -/
def bodyInvalidBalance : Body :=
  Body.json (Json.obj [("id", Json.num 152), ("source", Json.str "manual"),
    ("balance", Json.str "invalid"), ("currency", Json.str "ETH")])

/-- The decoded form of `bodyInvalidBalance`. -/
def cryptoInvalidBalance : Crypto :=
  { id := some 152, source := "manual", balance := "invalid", currency := "ETH" }

/-! ## Theorems -/

/-- C1: the claim says encoding an all-zero `TransactionFilters` with
`ToMap` succeeds and returns an empty mapping (and that zero fields are
omitted in general).  The code disagrees: none of the struct's json tags
carries `omitempty`, so `json.Marshal` emits every field — including the
`int64` fields as JSON numbers — and `json.Unmarshal` of a JSON number
into a `map[string]string` value is a type error.  `ToMap` therefore
returns an error for the all-zero filter, and indeed for every filter
value. -/
theorem toMap_always_errors :
    TransactionFilters.ToMap {} =
      Except.error "json: cannot unmarshal number into Go value of type string" ∧
    ∀ f : TransactionFilters,
      TransactionFilters.ToMap f =
        Except.error "json: cannot unmarshal number into Go value of type string" :=
  ⟨rfl, fun _ => rfl⟩

/-- C2: the claim says a filter with exactly one non-zero field encodes
to a single-entry mapping.  On the code, `ToMap` of the filter whose
only non-zero field is `Limit = 5` fails with an unmarshal type error
(the other fields are still marshalled as JSON numbers), so no mapping
is produced at all. -/
theorem toMap_single_field_errors :
    TransactionFilters.ToMap { limit := 5 } =
      Except.error "json: cannot unmarshal number into Go value of type string" :=
  rfl

/-- C3 counterexample: the claim says the decoded server response of a
mutating call is validated before being returned, so a malformed
response is rejected.  On the code, `UpdateManualCrypto` returns the
decoded record with no validation step: a response whose balance text is
not a decimal numeral (its `ParsedAmount` is a malformed-amount error)
is returned as a success. -/
theorem updateManualCrypto_returns_malformed_response :
    Client.UpdateManualCrypto 152 { name := some "Bitcoin" } (Except.ok bodyInvalidBalance) =
      Except.ok cryptoInvalidBalance ∧
    cryptoInvalidBalance.ParsedAmount = Except.error CurrencyError.malformedAmount :=
  ⟨rfl, rfl⟩

/-- C3 amended: validation runs once per mutating call, on the
caller-supplied payload before it is sent (a validation failure is
returned with no network call); the decoded server response is returned
to the caller without a second validation step. -/
theorem mutating_calls_validate_input_only :
    (∀ (id : Int) (ut : UpdateTransaction) (t : Except String Body) (e : String),
      ut.validate = some e → Client.UpdateTransaction id ut t = Except.error e) ∧
    (∀ (id : Int) (ut : UpdateTransaction) (b : Body) (r : UpdateTransactionResp),
      ut.validate = none → decodeUpdateTransactionResp b = Except.ok r →
      Client.UpdateTransaction id ut (Except.ok b) = Except.ok r) ∧
    (∀ (id : Int) (u : UpdateCrypto) (b : Body) (c : Crypto),
      decodeCryptoBody b = Except.ok c →
      Client.UpdateManualCrypto id u (Except.ok b) = Except.ok c) := by
  refine ⟨fun id ut t e h => ?_, fun id ut b r h1 h2 => ?_, fun id u b c h => ?_⟩
  · simp [Client.UpdateTransaction, h]
  · simp [Client.UpdateTransaction, h1, h2]
  · simp [Client.UpdateManualCrypto, UpdateCrypto.validate, h]

/-- C3 witness: the three parts of `mutating_calls_validate_input_only`
at concrete inputs. -/
theorem mutating_calls_validate_input_only_witness :
    Client.UpdateTransaction 1 { date := some "bad" } (Except.error "x") =
      Except.error "Field validation for Date failed on the datetime tag" ∧
    Client.UpdateTransaction 1 {} (Except.ok (Body.json (Json.obj [("updated", Json.bool true)]))) =
      Except.ok ⟨true, none⟩ ∧
    Client.UpdateManualCrypto 1 {} (Except.ok (Body.json Json.null)) = Except.ok {} :=
  ⟨mutating_calls_validate_input_only.1 1 _ _ _ rfl,
   mutating_calls_validate_input_only.2.1 1 {} _ _ rfl rfl,
   mutating_calls_validate_input_only.2.2 1 {} _ _ rfl⟩

/-- C4: every `UpdateTransaction` payload whose `Date` is present but is
not a `YYYY-MM-DD` date fails validation, and the method returns exactly
the validation error — no operation prefix, no wrapping — for every
possible transport outcome, i.e. before and independent of any network
call. -/
theorem updateTransaction_malformed_date_fails_before_network :
    ∀ (u : UpdateTransaction) (d : String) (id : Int) (t : Except String Body),
      u.date = some d → isValidDate d = false →
      ∃ e, u.validate = some e ∧
        Client.UpdateTransaction id u t = Except.error e := by
  intro u d id t hd hbad
  rcases u with ⟨date, cID, payee, cur, aID, rID, notes, status, extID⟩
  obtain rfl : date = some d := hd
  refine ⟨String.intercalate "\n"
      ("Field validation for Date failed on the datetime tag" ::
        (match status with
         | some s =>
           if !(s = "cleared" || s = "uncleared") then
             ["Field validation for Status failed on the oneof tag"]
           else []
         | none => [])), ?_, ?_⟩
  · simp [UpdateTransaction.validate, hbad]
  · simp [Client.UpdateTransaction, UpdateTransaction.validate, hbad]

/-- C4 witness: the claim's own example date `02/10/2021` is not a
`YYYY-MM-DD` date, and the payload carrying it is rejected with the
validation error, untouched, with an arbitrary transport outcome left
unconsulted. -/
theorem updateTransaction_malformed_date_fails_before_network_witness :
    isValidDate "02/10/2021" = false ∧
    (∃ e, UpdateTransaction.validate { date := some "02/10/2021" } = some e ∧
      Client.UpdateTransaction 1 { date := some "02/10/2021" } (Except.error "x") =
        Except.error e) :=
  ⟨rfl, updateTransaction_malformed_date_fails_before_network
    { date := some "02/10/2021" } "02/10/2021" 1 (Except.error "x") rfl rfl⟩

/-- C5: for every resource client method, a transport-level error `e`
(which includes non-2xx statuses such as HTTP 401, surfaced as errors by
the transport) is returned wrapped with the operation-specific prefix,
with the underlying message preserved and no record or list produced.
The single transport outcome is consulted at most once: no retry. -/
theorem transport_errors_wrapped :
    ∀ e : String,
      Client.GetCrypto (Except.error e) = Except.error ("get crypto: " ++ e) ∧
      Client.GetTransactions none (Except.error e) =
        Except.error ("get transactions: " ++ e) ∧
      Client.GetTransaction 7 none (Except.error e) =
        Except.error ("get transaction 7: " ++ e) ∧
      Client.UpdateTransaction 7 {} (Except.error e) =
        Except.error ("update transaction 7: " ++ e) ∧
      Client.UpdateManualCrypto 7 {} (Except.error e) =
        Except.error ("put crypto 7: " ++ e) :=
  fun _ => ⟨rfl, rfl, rfl, rfl, rfl⟩

/-- C6: for every resource client method, a body that fails to decode as
the expected envelope yields an error wrapped with the `decode response`
prefix, and no partial record or list is returned. -/
theorem decode_failures_wrapped :
    (∀ (b : Body) (e : String), decodeCryptoResponse b = Except.error e →
      Client.GetCrypto (Except.ok b) = Except.error ("decode response: " ++ e)) ∧
    (∀ (b : Body) (e : String), decodeTransactionsResponse b = Except.error e →
      Client.GetTransactions none (Except.ok b) =
        Except.error ("decode response: " ++ e)) ∧
    (∀ (b : Body) (e : String), decodeTransactionBody b = Except.error e →
      Client.GetTransaction 7 none (Except.ok b) =
        Except.error ("decode response: " ++ e)) ∧
    (∀ (b : Body) (e : String), decodeUpdateTransactionResp b = Except.error e →
      Client.UpdateTransaction 7 {} (Except.ok b) =
        Except.error ("decode response: " ++ e)) ∧
    (∀ (b : Body) (e : String), decodeCryptoBody b = Except.error e →
      Client.UpdateManualCrypto 7 {} (Except.ok b) =
        Except.error ("decode response: " ++ e)) := by
  refine ⟨fun b e h => ?_, fun b e h => ?_, fun b e h => ?_,
          fun b e h => ?_, fun b e h => ?_⟩
  · simp [Client.GetCrypto, h]
  · simp [Client.GetTransactions, h]
  · simp [Client.GetTransaction, h]
  · simp [Client.UpdateTransaction, UpdateTransaction.validate, h]
  · simp [Client.UpdateManualCrypto, UpdateCrypto.validate, h]

/-- C6 witness: each method applied to a body that is not valid JSON
(e.g. truncated text) returns the wrapped decode error. -/
theorem decode_failures_wrapped_witness :
    Client.GetCrypto (Except.ok Body.invalid) =
      Except.error ("decode response: " ++ "unexpected EOF") ∧
    Client.GetTransactions none (Except.ok Body.invalid) =
      Except.error ("decode response: " ++ "unexpected EOF") ∧
    Client.GetTransaction 7 none (Except.ok Body.invalid) =
      Except.error ("decode response: " ++ "unexpected EOF") ∧
    Client.UpdateTransaction 7 {} (Except.ok Body.invalid) =
      Except.error ("decode response: " ++ "unexpected EOF") ∧
    Client.UpdateManualCrypto 7 {} (Except.ok Body.invalid) =
      Except.error ("decode response: " ++ "unexpected EOF") :=
  ⟨decode_failures_wrapped.1 Body.invalid _ rfl,
   decode_failures_wrapped.2.1 Body.invalid _ rfl,
   decode_failures_wrapped.2.2.1 Body.invalid _ rfl,
   decode_failures_wrapped.2.2.2.1 Body.invalid _ rfl,
   decode_failures_wrapped.2.2.2.2 Body.invalid _ rfl⟩

/-- C7: a server response `{"crypto": []}` to the crypto list request
yields a present (non-nil, `some`) empty list and no error. -/
theorem getCrypto_empty_list_ok :
    Client.GetCrypto (Except.ok (Body.json (Json.obj [("crypto", Json.arr [])]))) =
      Except.ok (some []) :=
  rfl

/-- C8: `ParsedAmount` of a crypto record with balance `1.5` and
currency `BTC` succeeds and the resulting money value's currency code is
`BTC` (1.5 scaled to BTC's eight minor-unit digits); with balance
`invalid` and currency `ETH` it fails with a malformed-amount error. -/
theorem parsedAmount_scenarios :
    Crypto.ParsedAmount { balance := "1.5", currency := "BTC" } =
      Except.ok ⟨150000000, "BTC"⟩ ∧
    Crypto.ParsedAmount { balance := "invalid", currency := "ETH" } =
      Except.error CurrencyError.malformedAmount :=
  ⟨rfl, rfl⟩

/-- C9 counterexample: the claim says no `Crypto` record returned by a
client method has both identifier fields present.  On the code, a server
response whose record has source `manual` and both `id` and
`zabo_account_id` populated is decoded (no validation tag constrains
the fields) and returned unchanged by `GetCrypto`. -/
theorem getCrypto_returns_record_with_both_identifiers :
    Client.GetCrypto (Except.ok bodyBothIDs) = Except.ok (some [cryptoBothIDs]) ∧
    cryptoBothIDs.source = "manual" ∧
    cryptoBothIDs.id = some 1 ∧
    cryptoBothIDs.zaboAccountID = some 2 :=
  ⟨rfl, rfl, rfl, rfl⟩

/-- C9 amended: the mutual exclusivity of `ID` and `ZaboAccountID` is a
documented property of well-formed server data, not an enforced
invariant: the client returns every successfully decoded record exactly
as received, including records with both identifier fields present. -/
theorem getCrypto_returns_decoded_records_unchanged :
    ∀ (b : Body) (resp : CryptoResponse),
      decodeCryptoResponse b = Except.ok resp →
      Client.GetCrypto (Except.ok b) = Except.ok resp.crypto := by
  intro b resp h
  simp [Client.GetCrypto, h]

/-- C9 witness: `getCrypto_returns_decoded_records_unchanged` at the
both-identifiers body. -/
theorem getCrypto_returns_decoded_records_unchanged_witness :
    Client.GetCrypto (Except.ok bodyBothIDs) =
      Except.ok (CryptoResponse.mk (some [cryptoBothIDs])).crypto :=
  getCrypto_returns_decoded_records_unchanged bodyBothIDs ⟨some [cryptoBothIDs]⟩ rfl

/-- C10 counterexample: the claim says an update payload with every
field absent fails input validation and no request is sent.  On the
code, the all-nil `UpdateTransaction` and `UpdateCrypto` payloads pass
validation (no field is required), and the call proceeds to the network:
the transport outcome appears, operation-wrapped, in the result. -/
theorem empty_update_passes_validation :
    UpdateTransaction.validate {} = none ∧
    UpdateCrypto.validate {} = none ∧
    Client.UpdateTransaction 1 {} (Except.error "connection refused") =
      Except.error ("update transaction 1: connection refused") ∧
    Client.UpdateManualCrypto 1 {} (Except.error "connection refused") =
      Except.error ("put crypto 1: connection refused") :=
  ⟨rfl, rfl, rfl, rfl⟩

/-- C10 amended: an update payload with every optional field absent
passes input validation — neither `UpdateTransaction` nor `UpdateCrypto`
declares a required field — and the network request is sent (the result
is the wrapped transport outcome, for every transport error). -/
theorem empty_update_sends_request :
    ∀ e : String,
      UpdateTransaction.validate {} = none ∧
      UpdateCrypto.validate {} = none ∧
      Client.UpdateTransaction 1 {} (Except.error e) =
        Except.error ("update transaction 1: " ++ e) ∧
      Client.UpdateManualCrypto 1 {} (Except.error e) =
        Except.error ("put crypto 1: " ++ e) :=
  fun _ => ⟨rfl, rfl, rfl, rfl⟩

end LunchMoney
